import Mathlib

/-!
Verification of the multi-cluster context registry and resource-query
gateway (`openshift_mcp.py`, `chatbot.py`).

The embedding models:
- `OpenshiftContext` — the cluster connection profile dataclass;
- Python `dict` semantics (insertion-ordered keys, last value wins on a
  duplicate key) as an association list with `dictInsert`;
- `OpenshiftMCP` — the registry holding the name→profile mapping and the
  current context name (`None` is `Option.none`);
- the five resource-fetch operations, with the HTTP layer passed in as an
  explicit function from requests to transport outcomes;
- `initialize_openshift` from `chatbot.py`, which filters config records
  and rejects an empty result.
-/

/-- Minimal JSON value type for the parsed response bodies; the payload is
opaque to the gateway, so only its identity matters here. -/
inductive Json where
  | null : Json
  | bool (b : Bool) : Json
  | num (n : Int) : Json
  | str (s : String) : Json
  | arr (xs : List Json) : Json
  | obj (fields : List (String × Json)) : Json
deriving Repr

/-- Association list modelling a Python `dict` with `String` keys. -/
abbrev Dict (α : Type) := List (String × α)

/-- Python `d[k] = v`: replace the value in place if the key exists
(keeping its position), otherwise append the new binding. This is exactly
the insertion-order semantics of Python 3.7+ dicts. -/
def dictInsert {α : Type} (d : Dict α) (k : String) (v : α) : Dict α :=
  match d with
  | [] => [(k, v)]
  | (k', v') :: rest =>
    if k' = k then (k', v) :: rest else (k', v') :: dictInsert rest k v

/-- Python `d.get(k)` / `d[k]` lookup (the `None` case models `KeyError`). -/
def dictLookup {α : Type} (d : Dict α) (k : String) : Option α :=
  match d with
  | [] => none
  | (k', v) :: rest => if k' = k then some v else dictLookup rest k

/-- Python `list(d.keys())`: the keys in insertion order. -/
def dictKeys {α : Type} (d : Dict α) : List String :=
  d.map Prod.fst

/-- Python `k in d`. -/
def dictContains {α : Type} (d : Dict α) (k : String) : Bool :=
  (dictLookup d k).isSome

/-- The `OpenshiftContext` dataclass of `openshift_mcp.py`. -/
structure OpenshiftContext where
  api_url : String
  token : String
  «namespace» : String
  name : String
  verify_ssl : Bool := false
deriving Repr, DecidableEq

/-- Python `{ctx.name: ctx for ctx in contexts}`: fold of dict insertion. -/
def buildContexts (contexts : List OpenshiftContext) : Dict OpenshiftContext :=
  contexts.foldl (fun d ctx => dictInsert d ctx.name ctx) []

/-- The state of the `OpenshiftMCP` class: the name→profile dict and the
current context name (`None` when constructed from an empty list). -/
structure OpenshiftMCP where
  contexts : Dict OpenshiftContext
  current_context : Option String
deriving Repr, DecidableEq

/-- `OpenshiftMCP.__init__`: builds the dict comprehension and sets
`current_context` to `contexts[0].name if contexts else None`. The
`urllib3.disable_warnings()` side effect is outside the state model. -/
def OpenshiftMCP.init (contexts : List OpenshiftContext) : OpenshiftMCP :=
  { contexts := buildContexts contexts
    current_context :=
      match contexts with
      | [] => none
      | ctx :: _ => some ctx.name }

/-- `OpenshiftMCP.switch_context`: returns the boolean result paired with
the state after the call. -/
def OpenshiftMCP.switch_context (m : OpenshiftMCP) (name : String) :
    Bool × OpenshiftMCP :=
  if dictContains m.contexts name then
    (true, { m with current_context := some name })
  else
    (false, m)

/-- `OpenshiftMCP.list_contexts`: `list(self.contexts.keys())`. -/
def OpenshiftMCP.list_contexts (m : OpenshiftMCP) : List String :=
  dictKeys m.contexts

/-- `OpenshiftMCP.get_current_context`: returns `self.current_context`
(the name, or `None`). -/
def OpenshiftMCP.get_current_context (m : OpenshiftMCP) : Option String :=
  m.current_context

/-- `self.contexts[self.current_context]` as used by every fetch method;
`none` models the `KeyError` raised when the registry is empty. -/
def OpenshiftMCP.currentCtx (m : OpenshiftMCP) : Option OpenshiftContext :=
  m.current_context.bind (fun n => dictLookup m.contexts n)

/-- The five resource kinds the gateway can list. -/
inductive ResourceKind where
  | pods
  | services
  | deployments
  | resourcequotas
  | configmaps
deriving Repr, DecidableEq

/-- `OpenshiftMCP._get_base_url` applied to a profile:
`f"{ctx.api_url}/api/v1/namespaces/{ctx.namespace}"`. -/
def OpenshiftContext.base_url (ctx : OpenshiftContext) : String :=
  ctx.api_url ++ "/api/v1/namespaces/" ++ ctx.«namespace»

/-- The URL each fetch method passes to `requests.get`, per resource kind.
`deployments` uses its own apps API-group f-string; the other four append
their path segment to `_get_base_url()`. -/
def requestURL (ctx : OpenshiftContext) : ResourceKind → String
  | .pods => ctx.base_url ++ "/pods"
  | .services => ctx.base_url ++ "/services"
  | .deployments =>
    ctx.api_url ++ "/apis/apps/v1/namespaces/" ++ ctx.«namespace» ++ "/deployments"
  | .resourcequotas => ctx.base_url ++ "/resourcequotas"
  | .configmaps => ctx.base_url ++ "/configmaps"

/-- `OpenshiftMCP._get_headers` applied to a profile:
`{"Authorization": f"Bearer {ctx.token}"}`. -/
def OpenshiftContext.headers (ctx : OpenshiftContext) : Dict String :=
  [("Authorization", "Bearer " ++ ctx.token)]

/-- The arguments each fetch method passes to `requests.get`. -/
structure Request where
  url : String
  headers : Dict String
  verify : Bool
deriving Repr, DecidableEq

/-- The `requests.Response` fields `_handle_response` reads:
`status_code`, `text`, and the result of `.json()`. -/
structure Response where
  status_code : Nat
  text : String
  json : Json
deriving Repr

/-- The exceptions a fetch method can raise: the plain
`Exception(f"API Error: ...")` raised by `_handle_response`, or a
transport-level `requests` exception propagating out of `requests.get`
uncaught (identified by its message). -/
inductive PyError where
  | exception (msg : String)
  | requestException (msg : String)
deriving Repr, DecidableEq

/-- `OpenshiftMCP._handle_response`: return `response.json()` on status
200, otherwise raise `Exception(f"API Error: {status_code} - {text}")`. -/
def handle_response (response : Response) : Except PyError Json :=
  if response.status_code = 200 then
    Except.ok response.json
  else
    Except.error (PyError.exception
      ("API Error: " ++ toString response.status_code ++ " - " ++ response.text))

/-- The request a fetch method for kind `k` issues from profile `ctx`:
the kind's URL, the bearer header, and `verify=ctx.verify_ssl`. -/
def mkRequest (ctx : OpenshiftContext) (k : ResourceKind) : Request :=
  { url := requestURL ctx k, headers := ctx.headers, verify := ctx.verify_ssl }

/-- The HTTP layer as an explicit input: maps a request to either a
transport failure (the message of the raised `requests` exception) or a
received `Response`. -/
abbrev Http := Request → Except String Response

/-- The shared body of the five fetch methods, for a given profile: issue
one GET and feed the outcome through `_handle_response`; a transport
exception propagates unwrapped. -/
def get_resource (ctx : OpenshiftContext) (k : ResourceKind) (http : Http) :
    Except PyError Json :=
  match http (mkRequest ctx k) with
  | Except.error e => Except.error (PyError.requestException e)
  | Except.ok response => handle_response response

/-- `OpenshiftMCP.get_pods`; `none` models the `KeyError` on an empty
registry, where `self.contexts[self.current_context]` fails. -/
def OpenshiftMCP.get_pods (m : OpenshiftMCP) (http : Http) :
    Option (Except PyError Json) :=
  m.currentCtx.map (fun ctx => get_resource ctx ResourceKind.pods http)

/-- `OpenshiftMCP.get_services`. -/
def OpenshiftMCP.get_services (m : OpenshiftMCP) (http : Http) :
    Option (Except PyError Json) :=
  m.currentCtx.map (fun ctx => get_resource ctx ResourceKind.services http)

/-- `OpenshiftMCP.get_deployments`. -/
def OpenshiftMCP.get_deployments (m : OpenshiftMCP) (http : Http) :
    Option (Except PyError Json) :=
  m.currentCtx.map (fun ctx => get_resource ctx ResourceKind.deployments http)

/-- `OpenshiftMCP.get_resource_quotas`. -/
def OpenshiftMCP.get_resource_quotas (m : OpenshiftMCP) (http : Http) :
    Option (Except PyError Json) :=
  m.currentCtx.map (fun ctx => get_resource ctx ResourceKind.resourcequotas http)

/-- `OpenshiftMCP.get_config_maps`. -/
def OpenshiftMCP.get_config_maps (m : OpenshiftMCP) (http : Http) :
    Option (Except PyError Json) :=
  m.currentCtx.map (fun ctx => get_resource ctx ResourceKind.configmaps http)

/-- The `ClusterConfig` dataclass of `config.py`. -/
structure ClusterConfig where
  name : String
  url : String
  token : String
  «namespace» : String
deriving Repr, DecidableEq

/-- `chatbot.initialize_openshift`: keep the config records whose `url`,
`token` and `namespace` are all truthy (non-empty strings), raise
`ValueError` if none remain, otherwise build the `OpenshiftMCP`. -/
def initialize_openshift (cfgs : List ClusterConfig) :
    Except String OpenshiftMCP :=
  let clusters := cfgs.filterMap (fun cc =>
    if cc.url ≠ "" ∧ cc.token ≠ "" ∧ cc.«namespace» ≠ "" then
      some { name := cc.name, api_url := cc.url, token := cc.token,
             «namespace» := cc.«namespace», verify_ssl := false }
    else none)
  if clusters = ([] : List OpenshiftContext) then
    Except.error "No valid cluster configurations found in .env file"
  else
    Except.ok (OpenshiftMCP.init clusters)

/-- The operations the chatbot loop performs on the registry. A fetch
carries its kind and the HTTP layer, so failed fetches are included. -/
inductive Op where
  | switch (name : String)
  | listCtx
  | currentCtx
  | fetch (k : ResourceKind) (http : Http)

/-- State after performing one operation. `list_contexts`,
`get_current_context` and the fetch methods never assign to `self`, so
only `switch_context` can change the state. -/
def stepOp (m : OpenshiftMCP) : Op → OpenshiftMCP
  | Op.switch name => (m.switch_context name).2
  | Op.listCtx => m
  | Op.currentCtx => m
  | Op.fetch _ _ => m

/-- State after a sequence of operations. -/
def runOps (m : OpenshiftMCP) (ops : List Op) : OpenshiftMCP :=
  ops.foldl stepOp m

/-- The registry invariant: `current_context` is some name that is a key
of the `contexts` dict (never dangling). -/
def OpenshiftMCP.invariant (m : OpenshiftMCP) : Prop :=
  ∃ n, m.current_context = some n ∧ dictContains m.contexts n = true

/-- Spec-side characterization of a Python dict's key order, with an
accumulator of keys already seen: keeps the first occurrence of each
element, in order. -/
def firstOccurAux : List String → List String → List String
  | [], _ => []
  | x :: xs, seen =>
    if x ∈ seen then firstOccurAux xs seen
    else x :: firstOccurAux xs (seen ++ [x])

/-- Spec-side characterization of "stable insertion order, each name
exactly once": the input with every later duplicate dropped. -/
def firstOccur (l : List String) : List String :=
  firstOccurAux l []

/-- The last profile in the list bearing a given name, if any — the value
a Python dict comprehension associates to a duplicated key. -/
def lastProfileNamed : List OpenshiftContext → String → Option OpenshiftContext
  | [], _ => none
  | c :: rest, n =>
    match lastProfileNamed rest n with
    | some c' => some c'
    | none => if c.name = n then some c else none

theorem dictLookup_dictInsert {α : Type} (d : Dict α) (k k' : String) (v : α) :
    dictLookup (dictInsert d k v) k' =
      if k = k' then some v else dictLookup d k' := by
  induction d with
  | nil => by_cases h : k = k' <;> simp [dictInsert, dictLookup, h]
  | cons p rest ih =>
    obtain ⟨k0, v0⟩ := p
    by_cases h0 : k0 = k
    · subst h0
      by_cases h' : k0 = k' <;> simp [dictInsert, dictLookup, h']
    · by_cases h' : k0 = k'
      · subst h'
        have hk : ¬(k = k0) := fun h => h0 h.symm
        simp [dictInsert, dictLookup, h0, hk]
      · simp [dictInsert, dictLookup, h0, h', ih]

theorem dictContains_iff_mem {α : Type} (d : Dict α) (k : String) :
    dictContains d k = true ↔ k ∈ dictKeys d := by
  induction d with
  | nil => simp [dictContains, dictLookup, dictKeys]
  | cons p rest ih =>
    obtain ⟨k0, v0⟩ := p
    by_cases h : k0 = k
    · simp [dictContains, dictLookup, dictKeys, h]
    · have hne : ¬(k = k0) := fun h' => h h'.symm
      simp [dictContains, dictLookup, dictKeys, h, hne] at ih ⊢
      exact ih

theorem dictKeys_dictInsert_mem {α : Type} (d : Dict α) (k : String) (v : α)
    (h : k ∈ dictKeys d) : dictKeys (dictInsert d k v) = dictKeys d := by
  induction d with
  | nil => simp [dictKeys] at h
  | cons p rest ih =>
    obtain ⟨k0, v0⟩ := p
    by_cases h0 : k0 = k
    · simp [dictInsert, h0, dictKeys]
    · have hmem : k ∈ dictKeys rest := by
        rcases List.mem_cons.mp h with h1 | h1
        · exact absurd h1.symm h0
        · exact h1
      simp only [dictInsert, if_neg h0]
      show k0 :: dictKeys (dictInsert rest k v) = k0 :: dictKeys rest
      rw [ih hmem]

theorem dictKeys_dictInsert_not_mem {α : Type} (d : Dict α) (k : String) (v : α)
    (h : k ∉ dictKeys d) : dictKeys (dictInsert d k v) = dictKeys d ++ [k] := by
  induction d with
  | nil => simp [dictInsert, dictKeys]
  | cons p rest ih =>
    obtain ⟨k0, v0⟩ := p
    have h0 : ¬(k0 = k) := by
      intro h0
      subst h0
      exact h (List.mem_cons_self _ _)
    have hmem : k ∉ dictKeys rest := fun h1 => h (List.mem_cons_of_mem _ h1)
    simp only [dictInsert, if_neg h0]
    show k0 :: dictKeys (dictInsert rest k v) = k0 :: (dictKeys rest ++ [k])
    rw [ih hmem]

theorem dictKeys_foldl (ctxs : List OpenshiftContext) (d : Dict OpenshiftContext) :
    dictKeys (ctxs.foldl (fun d ctx => dictInsert d ctx.name ctx) d) =
      dictKeys d ++ firstOccurAux (ctxs.map OpenshiftContext.name) (dictKeys d) := by
  induction ctxs generalizing d with
  | nil => simp [firstOccurAux]
  | cons c rest ih =>
    by_cases h : c.name ∈ dictKeys d
    · rw [List.foldl_cons, ih, dictKeys_dictInsert_mem d c.name c h]
      simp [firstOccurAux, h]
    · rw [List.foldl_cons, ih, dictKeys_dictInsert_not_mem d c.name c h]
      simp [firstOccurAux, h, List.append_assoc]

theorem dictKeys_buildContexts (ctxs : List OpenshiftContext) :
    dictKeys (buildContexts ctxs) = firstOccur (ctxs.map OpenshiftContext.name) := by
  have h := dictKeys_foldl ctxs []
  simpa [buildContexts, dictKeys, firstOccur] using h

theorem mem_firstOccurAux (l : List String) (seen : List String) (x : String) :
    x ∈ firstOccurAux l seen ↔ x ∈ l ∧ x ∉ seen := by
  induction l generalizing seen with
  | nil => simp [firstOccurAux]
  | cons y ys ih =>
    by_cases h : y ∈ seen
    · rw [firstOccurAux, if_pos h, ih]
      constructor
      · rintro ⟨hx, hs⟩
        exact ⟨List.mem_cons_of_mem _ hx, hs⟩
      · rintro ⟨hx, hs⟩
        rcases List.mem_cons.mp hx with rfl | hx'
        · exact absurd h hs
        · exact ⟨hx', hs⟩
    · rw [firstOccurAux, if_neg h]
      constructor
      · intro hx
        rcases List.mem_cons.mp hx with rfl | hx'
        · exact ⟨List.mem_cons_self _ _, h⟩
        · obtain ⟨h1, h2⟩ := (ih (seen ++ [y])).mp hx'
          exact ⟨List.mem_cons_of_mem _ h1,
            fun hc => h2 (List.mem_append.mpr (Or.inl hc))⟩
      · rintro ⟨hx, hs⟩
        by_cases hxy : x = y
        · subst hxy
          exact List.mem_cons_self _ _
        · rcases List.mem_cons.mp hx with h1 | h1
          · exact absurd h1 hxy
          · refine List.mem_cons_of_mem _ ((ih (seen ++ [y])).mpr ⟨h1, ?_⟩)
            intro hc
            rcases List.mem_append.mp hc with hc | hc
            · exact hs hc
            · exact hxy (List.mem_singleton.mp hc)

theorem nodup_firstOccurAux (l : List String) (seen : List String) :
    (firstOccurAux l seen).Nodup := by
  induction l generalizing seen with
  | nil => simp [firstOccurAux]
  | cons y ys ih =>
    by_cases h : y ∈ seen
    · rw [firstOccurAux, if_pos h]
      exact ih seen
    · rw [firstOccurAux, if_neg h]
      refine List.nodup_cons.mpr ⟨?_, ih (seen ++ [y])⟩
      intro hy
      rw [mem_firstOccurAux] at hy
      exact hy.2 (by simp)

theorem length_firstOccurAux (l : List String) (seen : List String) :
    (firstOccurAux l seen).length ≤ l.length := by
  induction l generalizing seen with
  | nil => simp [firstOccurAux]
  | cons y ys ih =>
    by_cases h : y ∈ seen
    · rw [firstOccurAux, if_pos h]
      exact Nat.le_succ_of_le (ih seen)
    · rw [firstOccurAux, if_neg h]
      simpa using Nat.succ_le_succ (ih (seen ++ [y]))

theorem dictLookup_foldl (ctxs : List OpenshiftContext) (d : Dict OpenshiftContext)
    (n : String) :
    dictLookup (ctxs.foldl (fun d ctx => dictInsert d ctx.name ctx) d) n =
      match lastProfileNamed ctxs n with
      | some c => some c
      | none => dictLookup d n := by
  induction ctxs generalizing d with
  | nil => simp [lastProfileNamed]
  | cons c rest ih =>
    rw [List.foldl_cons, ih]
    cases hrest : lastProfileNamed rest n with
    | some c' => simp [lastProfileNamed, hrest]
    | none =>
      by_cases hname : c.name = n
      · simp [lastProfileNamed, hrest, hname, dictLookup_dictInsert]
      · simp [lastProfileNamed, hrest, hname, dictLookup_dictInsert]

theorem mem_dictKeys_buildContexts (ctxs : List OpenshiftContext) (n : String) :
    n ∈ dictKeys (buildContexts ctxs) ↔ n ∈ ctxs.map OpenshiftContext.name := by
  rw [dictKeys_buildContexts, firstOccur, mem_firstOccurAux]
  simp

theorem invariant_init (ctxs : List OpenshiftContext) (h : ctxs ≠ []) :
    (OpenshiftMCP.init ctxs).invariant := by
  match ctxs, h with
  | c :: rest, _ =>
    refine ⟨c.name, rfl, ?_⟩
    rw [dictContains_iff_mem]
    show c.name ∈ dictKeys (buildContexts (c :: rest))
    rw [mem_dictKeys_buildContexts]
    simp

theorem contexts_stepOp (m : OpenshiftMCP) (op : Op) :
    (stepOp m op).contexts = m.contexts := by
  cases op with
  | switch name =>
    simp only [stepOp, OpenshiftMCP.switch_context]
    split <;> rfl
  | listCtx => rfl
  | currentCtx => rfl
  | fetch k http => rfl

theorem invariant_stepOp (m : OpenshiftMCP) (op : Op) (h : m.invariant) :
    (stepOp m op).invariant := by
  cases op with
  | switch name =>
    simp only [stepOp, OpenshiftMCP.switch_context]
    by_cases hc : dictContains m.contexts name = true
    · rw [if_pos hc]
      exact ⟨name, rfl, hc⟩
    · rw [if_neg hc]
      exact h
  | listCtx => exact h
  | currentCtx => exact h
  | fetch k http => exact h

theorem invariant_runOps (m : OpenshiftMCP) (ops : List Op) (h : m.invariant) :
    (runOps m ops).invariant := by
  induction ops generalizing m with
  | nil => exact h
  | cons op rest ih =>
    rw [runOps, List.foldl_cons]
    exact ih (stepOp m op) (invariant_stepOp m op h)

/-- Sample profile for cluster "a". -/
def ctxA : OpenshiftContext :=
  { api_url := "https://a.example", token := "tokA", «namespace» := "nsa",
    name := "a" }

/-- Sample profile for cluster "b". -/
def ctxB : OpenshiftContext :=
  { api_url := "https://b.example", token := "tokB", «namespace» := "nsb",
    name := "b", verify_ssl := true }

/-- Mock HTTP layer answering every request with status 403. -/
def mock403 : Http := fun _ =>
  Except.ok { status_code := 403, text := "Forbidden", json := Json.null }

/-- Mock HTTP layer answering every request with a 200 and an items list. -/
def mock200 : Http := fun _ =>
  Except.ok { status_code := 200, text := "",
              json := Json.obj [("items", Json.arr [])] }

/-- C1: for every registry constructed from a non-empty profile list, the
invariant — `current_context` is some name that is a key of the `contexts`
mapping, never dangling — holds right after construction and is preserved
by every sequence of operations (switch, list, current, and all five fetch
operations, including failed ones, which never reassign the state). -/
theorem registry_invariant_holds (ctxs : List OpenshiftContext) (ops : List Op)
    (h : ctxs ≠ []) :
    (OpenshiftMCP.init ctxs).invariant ∧
    (runOps (OpenshiftMCP.init ctxs) ops).invariant :=
  ⟨invariant_init ctxs h, invariant_runOps _ ops (invariant_init ctxs h)⟩

/-- C1 witness: the invariant holds concretely after constructing from two
profiles and performing a switch, a failed fetch and a list. -/
theorem registry_invariant_holds_witness :
    (OpenshiftMCP.init [ctxA, ctxB]).invariant ∧
    (runOps (OpenshiftMCP.init [ctxA, ctxB])
      [Op.switch "b", Op.fetch ResourceKind.pods mock403, Op.listCtx]).invariant :=
  registry_invariant_holds [ctxA, ctxB]
    [Op.switch "b", Op.fetch ResourceKind.pods mock403, Op.listCtx]
    (List.cons_ne_nil _ _)

/-- C2: constructing the registry from a non-empty list builds the
name→profile mapping and sets the current context to the first profile's
name, so `get_current_context` right after `init` is the head's name. -/
theorem init_current_is_first (c : OpenshiftContext)
    (rest : List OpenshiftContext) :
    (OpenshiftMCP.init (c :: rest)).get_current_context = some c.name ∧
    (OpenshiftMCP.init (c :: rest)).contexts = buildContexts (c :: rest) :=
  ⟨rfl, rfl⟩

/-- C3: `switch_context` returns true and repoints `current_context` when
the name is a key of `contexts`, and otherwise returns false leaving the
entire state unchanged; it is a total function (never raises), and a
failed switch performed twice in a row leaves the state identical to the
state before either call. -/
theorem switch_context_spec (m : OpenshiftMCP) (name : String) :
    (dictContains m.contexts name = true →
      m.switch_context name =
        (true, { contexts := m.contexts, current_context := some name })) ∧
    (dictContains m.contexts name = false →
      m.switch_context name = (false, m) ∧
      ((m.switch_context name).2.switch_context name).2 = m) := by
  constructor
  · intro h
    simp [OpenshiftMCP.switch_context, h]
  · intro h
    simp [OpenshiftMCP.switch_context, h]

/-- C3 witness: on the two-profile registry, switching to the unknown name
"zzz" returns false and leaves the state unchanged. -/
theorem switch_context_spec_witness :
    (OpenshiftMCP.init [ctxA, ctxB]).switch_context "zzz" =
      (false, OpenshiftMCP.init [ctxA, ctxB]) :=
  ((switch_context_spec (OpenshiftMCP.init [ctxA, ctxB]) "zzz").2 (by decide)).1

/-- C4 counterexample: the error raised on a failing fetch does not carry
the resource kind or the attempted URL's host, contrary to the claim. Two
fetches of different kinds against the same 403 upstream produce exactly
the same error value, as do fetches of the same kind against clusters with
different hosts, so the error cannot carry either; its message is exactly
`API Error: 403 - Forbidden`. Moreover a transport-level failure is not
normalized: the raw transport exception propagates unwrapped. -/
theorem fetch_error_lacks_kind_and_host :
    get_resource ctxA ResourceKind.pods mock403 =
      Except.error (PyError.exception "API Error: 403 - Forbidden") ∧
    get_resource ctxA ResourceKind.pods mock403 =
      get_resource ctxA ResourceKind.services mock403 ∧
    get_resource ctxA ResourceKind.pods mock403 =
      get_resource ctxB ResourceKind.pods mock403 ∧
    get_resource ctxA ResourceKind.pods
        (fun _ => Except.error "ConnectionError: dns failure") =
      Except.error (PyError.requestException "ConnectionError: dns failure") :=
  ⟨rfl, rfl, rfl, rfl⟩

/-- C4 (amended): for every fetch operation, a received non-200 response
makes the operation fail with the exception whose message carries the HTTP
status and the response body text (but not the resource kind or the URL's
host), and a transport-level failure propagates the transport exception
unwrapped; in both cases no data, partial or otherwise, is returned. -/
theorem fetch_error_spec (ctx : OpenshiftContext) (k : ResourceKind)
    (http : Http) :
    (∀ response, http (mkRequest ctx k) = Except.ok response →
      response.status_code ≠ 200 →
      get_resource ctx k http = Except.error (PyError.exception
        ("API Error: " ++ toString response.status_code ++ " - " ++
          response.text))) ∧
    (∀ e, http (mkRequest ctx k) = Except.error e →
      get_resource ctx k http = Except.error (PyError.requestException e)) := by
  constructor
  · intro response hresp hstatus
    simp [get_resource, hresp, handle_response, hstatus]
  · intro e he
    simp [get_resource, he]

/-- C4 witness: the amended statement evaluated on the 403 mock. -/
theorem fetch_error_spec_witness :
    get_resource ctxA ResourceKind.pods mock403 =
      Except.error (PyError.exception "API Error: 403 - Forbidden") :=
  (fetch_error_spec ctxA ResourceKind.pods mock403).1
    { status_code := 403, text := "Forbidden", json := Json.null } rfl
    (by decide)

/-- C5: constructing the registry through `initialize_openshift` fails
with the `ValueError` (the spec's `ConfigurationError`) whenever no usable
cluster configuration remains — in particular for the empty sequence — so
the failure surfaces before the interactive loop ever starts. -/
theorem initialize_empty_fails (cfgs : List ClusterConfig)
    (h : ∀ cc ∈ cfgs, cc.url = "" ∨ cc.token = "" ∨ cc.«namespace» = "") :
    initialize_openshift cfgs =
      Except.error "No valid cluster configurations found in .env file" := by
  have hfm : (cfgs.filterMap (fun cc =>
      if cc.url ≠ "" ∧ cc.token ≠ "" ∧ cc.«namespace» ≠ "" then
        some ({ name := cc.name, api_url := cc.url, token := cc.token,
                «namespace» := cc.«namespace», verify_ssl := false } :
          OpenshiftContext)
      else none)) = [] := by
    rw [List.filterMap_eq_nil_iff]
    intro cc hcc
    rcases h cc hcc with h1 | h1 | h1 <;> simp [h1]
  simp [initialize_openshift, hfm]

/-- C5 witness: the empty profile sequence makes construction fail. -/
theorem initialize_empty_fails_witness :
    initialize_openshift [] =
      Except.error "No valid cluster configurations found in .env file" :=
  initialize_empty_fails [] (by intro cc hcc; cases hcc)

/-- C6: after construction from a non-empty list and any sequence of
operations, the current-profile access always succeeds: the current name
is some registered name and looking it up yields a profile. It can fail
(yield `none`, the code's `None`/`KeyError`) only for a registry that was
somehow constructed empty, which the non-emptiness hypothesis rules out. -/
theorem current_always_succeeds (ctxs : List OpenshiftContext) (ops : List Op)
    (h : ctxs ≠ []) :
    ∃ n ctx,
      (runOps (OpenshiftMCP.init ctxs) ops).get_current_context = some n ∧
      (runOps (OpenshiftMCP.init ctxs) ops).currentCtx = some ctx := by
  obtain ⟨n, hn, hc⟩ := invariant_runOps _ ops (invariant_init ctxs h)
  have hsome :
      (dictLookup (runOps (OpenshiftMCP.init ctxs) ops).contexts n).isSome =
        true := hc
  obtain ⟨ctx, hctx⟩ := Option.isSome_iff_exists.mp hsome
  refine ⟨n, ctx, hn, ?_⟩
  simp [OpenshiftMCP.currentCtx, OpenshiftMCP.get_current_context] at hn ⊢
  rw [hn]
  exact hctx

/-- C6 witness: the current profile is available concretely after a
context switch on the two-profile registry. -/
theorem current_always_succeeds_witness :
    ∃ n ctx,
      (runOps (OpenshiftMCP.init [ctxA, ctxB])
        [Op.switch "b"]).get_current_context = some n ∧
      (runOps (OpenshiftMCP.init [ctxA, ctxB]) [Op.switch "b"]).currentCtx =
        some ctx :=
  current_always_succeeds [ctxA, ctxB] [Op.switch "b"] (List.cons_ne_nil _ _)

/-- C7: for every profile, the URL each fetch passes to `requests.get`
contains the profile's namespace and the kind's path segment: pods,
services, resourcequotas and configmaps use the core v1 namespaced path,
while deployments use the distinct apps API-group path; and the issued
request carries exactly that URL. -/
theorem request_urls_spec (ctx : OpenshiftContext) :
    requestURL ctx ResourceKind.pods =
      ctx.api_url ++ "/api/v1/namespaces/" ++ ctx.«namespace» ++ "/pods" ∧
    requestURL ctx ResourceKind.services =
      ctx.api_url ++ "/api/v1/namespaces/" ++ ctx.«namespace» ++ "/services" ∧
    requestURL ctx ResourceKind.resourcequotas =
      ctx.api_url ++ "/api/v1/namespaces/" ++ ctx.«namespace» ++
        "/resourcequotas" ∧
    requestURL ctx ResourceKind.configmaps =
      ctx.api_url ++ "/api/v1/namespaces/" ++ ctx.«namespace» ++
        "/configmaps" ∧
    requestURL ctx ResourceKind.deployments =
      ctx.api_url ++ "/apis/apps/v1/namespaces/" ++ ctx.«namespace» ++
        "/deployments" ∧
    ∀ k, (mkRequest ctx k).url = requestURL ctx k :=
  ⟨rfl, rfl, rfl, rfl, rfl, fun _ => rfl⟩

/-- C8: for every fetch operation, an upstream 200 response makes the
operation return the parsed response body unchanged — no transformation,
filtering or validation of the payload. -/
theorem fetch_200_passthrough (ctx : OpenshiftContext) (k : ResourceKind)
    (http : Http) (response : Response)
    (hresp : http (mkRequest ctx k) = Except.ok response)
    (h200 : response.status_code = 200) :
    get_resource ctx k http = Except.ok response.json := by
  simp [get_resource, hresp, handle_response, h200]

/-- C8 witness: a mocked 200 upstream with body `\x7b"items": []\x7d`
yields exactly that payload. -/
theorem fetch_200_passthrough_witness :
    get_resource ctxA ResourceKind.pods mock200 =
      Except.ok (Json.obj [("items", Json.arr [])]) :=
  fetch_200_passthrough ctxA ResourceKind.pods mock200
    { status_code := 200, text := "",
      json := Json.obj [("items", Json.arr [])] } rfl rfl

/-- C9: `list_contexts` returns exactly the set of profile names passed at
construction — each distinct name exactly once — in stable insertion
order (the order of first occurrence in the input). -/
theorem list_contexts_spec (ctxs : List OpenshiftContext) :
    (OpenshiftMCP.init ctxs).list_contexts =
      firstOccur (ctxs.map OpenshiftContext.name) ∧
    (∀ n, n ∈ (OpenshiftMCP.init ctxs).list_contexts ↔
      n ∈ ctxs.map OpenshiftContext.name) ∧
    (OpenshiftMCP.init ctxs).list_contexts.Nodup := by
  refine ⟨?_, ?_, ?_⟩
  · exact dictKeys_buildContexts ctxs
  · intro n
    exact mem_dictKeys_buildContexts ctxs n
  · show (dictKeys (buildContexts ctxs)).Nodup
    rw [dictKeys_buildContexts]
    exact nodup_firstOccurAux _ []

/-- C10: when the input list repeats a name, construction still succeeds
(the constructor is total) and the mapping associates that name to the
last profile in the list bearing it; `list_contexts` keeps one entry per
distinct name and so can be shorter than the input. -/
theorem duplicate_names_last_wins (ctxs : List OpenshiftContext) (n : String) :
    dictLookup (OpenshiftMCP.init ctxs).contexts n = lastProfileNamed ctxs n ∧
    (OpenshiftMCP.init ctxs).list_contexts.Nodup ∧
    (OpenshiftMCP.init ctxs).list_contexts.length ≤ ctxs.length := by
  refine ⟨?_, ?_, ?_⟩
  · have h := dictLookup_foldl ctxs [] n
    show dictLookup (buildContexts ctxs) n = lastProfileNamed ctxs n
    rw [buildContexts, h]
    cases lastProfileNamed ctxs n <;> simp [dictLookup]
  · show (dictKeys (buildContexts ctxs)).Nodup
    rw [dictKeys_buildContexts]
    exact nodup_firstOccurAux _ []
  · show (dictKeys (buildContexts ctxs)).length ≤ ctxs.length
    rw [dictKeys_buildContexts]
    calc (firstOccur (ctxs.map OpenshiftContext.name)).length
        ≤ (ctxs.map OpenshiftContext.name).length := length_firstOccurAux _ []
      _ = ctxs.length := List.length_map _ _
